import Mathlib

/-!
Shallow embedding of the redirect-swapping proxy core of
DoodleScheduling/oauth2-redirect-controller (src/proxy/oauth2.go), together
with the fragments of Go's standard library the core depends on
(net/url parsing/encoding of URLs and query strings, encoding/json
marshalling of the flat two-string-field `state` struct).

Modelling conventions:
- Strings are Lean `String`s; character-level work happens on `List Char`
  (the inputs exercised by the program are ASCII, so byte-level percent
  escaping coincides with character-level escaping).
- Machine integers (the backend port, an int32) are modelled as `Int`.
- Fallible parsing returns `Option`.
- The HTTP client call performed by the outbound leg is abstracted as a
  function from the cloned request to `Option Response` (`none` models a
  transport error of `client.Do`).
-/

set_option autoImplicit false
set_option maxRecDepth 100000

namespace OAuth2Redirect

/-! ## Character helpers shared by the net/url and encoding/json models -/

/-- Value of a hex digit character, if it is one (Go `unhex`/`ishex`). -/
def hexVal (c : Char) : Option Nat :=
  if '0' ≤ c ∧ c ≤ '9' then some (c.toNat - '0'.toNat)
  else if 'a' ≤ c ∧ c ≤ 'f' then some (c.toNat - 'a'.toNat + 10)
  else if 'A' ≤ c ∧ c ≤ 'F' then some (c.toNat - 'A'.toNat + 10)
  else none

/-- Uppercase hex digit for a value < 16 (Go escapes with "0123456789ABCDEF"). -/
def hexDigitUpper (n : Nat) : Char :=
  if n < 10 then Char.ofNat (48 + n) else Char.ofNat (55 + n)

/-- Go `shouldEscape(c, encodeQueryComponent)` is false exactly on
alphanumerics and `-`, `_`, `.`, `~`. -/
def isQueryUnreserved (c : Char) : Bool :=
  c.isAlphanum || c = '-' || c = '_' || c = '.' || c = '~'

/-- Go `url.QueryEscape`: keep unreserved characters, space becomes `+`,
everything else becomes `%XX` with uppercase hex (ASCII inputs). -/
def queryEscapeList : List Char → List Char
  | [] => []
  | c :: rest =>
    if isQueryUnreserved c then c :: queryEscapeList rest
    else if c = ' ' then '+' :: queryEscapeList rest
    else '%' :: hexDigitUpper (c.toNat / 16) :: hexDigitUpper (c.toNat % 16) :: queryEscapeList rest

/-- Percent-unescaping (Go `unescape`).  `plusToSpace` is true in query
components (`+` decodes to a space) and false in paths.  Fails on an
invalid or truncated `%` escape, as Go does. -/
def percentUnescape (plusToSpace : Bool) : List Char → Option (List Char)
  | [] => some []
  | '%' :: a :: b :: rest =>
    match hexVal a, hexVal b with
    | some x, some y => (percentUnescape plusToSpace rest).map (Char.ofNat (16 * x + y) :: ·)
    | _, _ => none
  | '%' :: _ :: [] => none
  | '%' :: [] => none
  | '+' :: rest =>
    if plusToSpace then (percentUnescape plusToSpace rest).map (' ' :: ·)
    else (percentUnescape plusToSpace rest).map ('+' :: ·)
  | c :: rest => (percentUnescape plusToSpace rest).map (c :: ·)

/-- Split a character list at every occurrence of `sep` (Go repeated
`strings.Cut`). An empty input yields one empty segment, like Go's
iteration which is skipped entirely only because of the `key == ""` check. -/
def splitOnChar (sep : Char) : List Char → List (List Char)
  | [] => [[]]
  | c :: rest =>
    if c = sep then [] :: splitOnChar sep rest
    else
      match splitOnChar sep rest with
      | [] => [[c]]
      | seg :: segs => (c :: seg) :: segs

/-! ## url.Values: parse, Get/Set/Del, Encode -/

/-- `url.Values`: key to ordered values.  Go uses a map; entry order is
unobservable because `Encode` sorts keys, so an association list with
unique keys is a faithful model. -/
abbrev Values := List (String × List String)

/-- Append one decoded pair, `m[key] = append(m[key], value)`. -/
def valuesAdd (vs : Values) (k v : String) : Values :=
  match vs with
  | [] => [(k, [v])]
  | (k0, l0) :: rest => if k0 = k then (k0, l0 ++ [v]) :: rest else (k0, l0) :: valuesAdd rest k v

/-- One `key=value` segment of a query string (Go `parseQuery` loop body):
segments containing `;` are dropped with an error, the segment is cut at the
first `=`, both sides are query-unescaped, failures drop the pair. -/
def parsePair (seg : List Char) : Option (String × String) :=
  if seg.contains ';' then none
  else
    let k := seg.takeWhile (· ≠ '=')
    let v := (seg.dropWhile (· ≠ '=')).drop 1
    match percentUnescape true k, percentUnescape true v with
    | some k, some v => some (⟨k⟩, ⟨v⟩)
    | _, _ => none

/-- Go `url.ParseQuery` (as used via `URL.Query()`, which discards the
error): split on `&`, skip empty segments and undecodable pairs. -/
def parseQuery (s : String) : Values :=
  (splitOnChar '&' s.data).foldl
    (fun acc seg =>
      if seg = [] then acc
      else
        match parsePair seg with
        | some (k, v) => valuesAdd acc k v
        | none => acc)
    []

/-- `Values.Get`: first value for the key, or `""` when absent. -/
def valuesGet (vs : Values) (k : String) : String :=
  match vs with
  | [] => ""
  | (k0, l0) :: rest => if k0 = k then (match l0 with | [] => "" | v :: _ => v) else valuesGet rest k

/-- `Values.Set`: replace all values of the key by the single given one. -/
def valuesSet (vs : Values) (k v : String) : Values :=
  match vs with
  | [] => [(k, [v])]
  | (k0, l0) :: rest => if k0 = k then (k0, [v]) :: rest else (k0, l0) :: valuesSet rest k v

/-- `Values.Del`: remove the key. -/
def valuesDel (vs : Values) (k : String) : Values :=
  match vs with
  | [] => []
  | (k0, l0) :: rest => if k0 = k then rest else (k0, l0) :: valuesDel rest k

/-- Byte-lexicographic order on strings, as used by Go's `sort.Strings`
inside `Values.Encode` (ASCII keys). -/
def lexLe : List Char → List Char → Bool
  | [], _ => true
  | _ :: _, [] => false
  | a :: as, b :: bs =>
    if a.toNat < b.toNat then true
    else if b.toNat < a.toNat then false
    else lexLe as bs

/-- Insert an entry into a key-sorted list of entries. -/
def insertByKey (e : String × List String) : Values → Values
  | [] => [e]
  | e0 :: rest => if lexLe e.1.data e0.1.data then e :: e0 :: rest else e0 :: insertByKey e rest

/-- Sort entries by key (insertion sort; keys are unique). -/
def sortByKey : Values → Values
  | [] => []
  | e :: rest => insertByKey e (sortByKey rest)

/-- `Values.Encode`: keys sorted, each value query-escaped, pairs joined
with `&`. -/
def valuesEncode (vs : Values) : String :=
  let pieces := (sortByKey vs).foldr
    (fun (k, l) acc =>
      l.foldr (fun v acc2 => (queryEscapeList k.data ++ '=' :: queryEscapeList v.data) :: acc2) acc)
    []
  ⟨(pieces.intersperse ['&']).foldr (· ++ ·) []⟩

/-! ## net/url: URL, Parse, String

The model covers the hierarchical URLs the proxy manipulates
(`scheme://host/path?query`).  Not modelled, because the proxy never
produces or observes them: userinfo, the `Opaque` form's round-tripping
(a `scheme:rest` URL parses with empty host and empty path here), host
character/port validation (Go is stricter), and fragments (stripped, as
in Go, before parsing). -/

structure URL where
  scheme : String
  host : String
  path : String
  rawQuery : String
deriving DecidableEq, Repr

/-- Go `getScheme`: scan for a `:` introducing a scheme.  Letters may
appear anywhere, digits and `+ - .` only after the first character;
a `:` before any scheme character is the "missing protocol scheme"
error (`none`); any other character means there is no scheme at all. -/
def getSchemeAux (orig : List Char) (acc : List Char) : List Char → Option (List Char × List Char)
  | [] => some ([], orig)
  | c :: rest =>
    if c.isAlpha then getSchemeAux orig (acc ++ [c]) rest
    else if c.isDigit || c = '+' || c = '-' || c = '.' then
      if acc = [] then some ([], orig) else getSchemeAux orig (acc ++ [c]) rest
    else if c = ':' then
      if acc = [] then none else some (acc, rest)
    else some ([], orig)

def getScheme (s : List Char) : Option (List Char × List Char) :=
  getSchemeAux s [] s

/-- Go `url.Parse` on the shapes the proxy uses: reject ASCII control
characters, strip the fragment, split off the scheme, cut the query at
the first `?`, then read `//authority` and the percent-decoded path. -/
def parseURL (s : String) : Option URL :=
  if s.data.any (fun c => c.toNat < 32 || c.toNat = 127) then none
  else
    let noFrag := s.data.takeWhile (· ≠ '#')
    match getScheme noFrag with
    | none => none
    | some (scheme, rest) =>
      let schemeStr : String := ⟨scheme.map Char.toLower⟩
      let beforeQuery := rest.takeWhile (· ≠ '?')
      let rawQuery := ((rest.dropWhile (· ≠ '?')).drop 1)
      match beforeQuery with
      | '/' :: '/' :: afterSlashes =>
        let host := afterSlashes.takeWhile (· ≠ '/')
        let rawPath := afterSlashes.dropWhile (· ≠ '/')
        match percentUnescape false rawPath with
        | none => none
        | some path => some ⟨schemeStr, ⟨host⟩, ⟨path⟩, ⟨rawQuery⟩⟩
      | _ =>
        if scheme ≠ [] then
          -- Go stores this as Opaque with empty Host and Path.
          some ⟨schemeStr, "", "", ⟨rawQuery⟩⟩
        else
          match percentUnescape false beforeQuery with
          | none => none
          | some path => some ⟨schemeStr, "", ⟨path⟩, ⟨rawQuery⟩⟩

/-- Go `shouldEscape(c, encodePath)` is false on alphanumerics, `-_.~`
and the sub-delimiters `$ & + , / : ; = @`; `?` and everything else is
escaped. -/
def isPathSafe (c : Char) : Bool :=
  c.isAlphanum || c = '-' || c = '_' || c = '.' || c = '~' ||
  c = '$' || c = '&' || c = '+' || c = ',' || c = '/' || c = ':' || c = ';' || c = '=' || c = '@'

/-- Go `escape(path, encodePath)` as used by `URL.EscapedPath` when no
valid `RawPath` is cached. -/
def pathEscapeList : List Char → List Char
  | [] => []
  | c :: rest =>
    if isPathSafe c then c :: pathEscapeList rest
    else '%' :: hexDigitUpper (c.toNat / 16) :: hexDigitUpper (c.toNat % 16) :: pathEscapeList rest

/-- Go `URL.String()` for URLs without userinfo/opacity: `scheme:`,
`//host` when a host or path is present, the escaped path, `?query`
when the query is non-empty. -/
def URL.string (u : URL) : String :=
  ⟨(if u.scheme ≠ "" then u.scheme.data ++ [':'] else []) ++
   (if u.scheme ≠ "" || u.host ≠ "" then
      (if u.host ≠ "" || u.path ≠ "" then ['/', '/'] else []) ++ u.host.data
    else []) ++
   pathEscapeList u.path.data ++
   (if u.rawQuery ≠ "" then '?' :: u.rawQuery.data else [])⟩

/-! ## encoding/json for the `state` struct

```go
type state struct {
    OrigState       string `json:"origState,omitempty"`
    OrigRedirectURI string `json:"origRedirectURI,omitempty"`
}
```
-/

structure state where
  OrigState : String
  OrigRedirectURI : String
deriving DecidableEq, Repr

/-- Go `json.Marshal` string escaping (default HTML-escaping encoder):
quote, backslash, `<`, `>`, `&` and control characters are escaped. -/
def jsonEscapeChar (c : Char) : List Char :=
  if c = '"' then ['\\', '"']
  else if c = '\\' then ['\\', '\\']
  else if c = '<' then ['\\', 'u', '0', '0', '3', 'c']
  else if c = '>' then ['\\', 'u', '0', '0', '3', 'e']
  else if c = '&' then ['\\', 'u', '0', '0', '2', '6']
  else if c = '\n' then ['\\', 'n']
  else if c = '\r' then ['\\', 'r']
  else if c = '\t' then ['\\', 't']
  else if c.toNat < 32 then
    ['\\', 'u', '0', '0', hexDigitUpper (c.toNat / 16), Char.toLower (hexDigitUpper (c.toNat % 16))]
  else [c]

def jsonEscape (s : List Char) : List Char :=
  s.foldr (fun c acc => jsonEscapeChar c ++ acc) []

def jsonQuoted (s : String) : List Char :=
  '"' :: jsonEscape s.data ++ ['"']

/-- Go `json.Marshal` of a `state` value: fields in declaration order,
both tagged `omitempty`, no whitespace. -/
def jsonEncodeState (st : state) : String :=
  let fields :=
    (if st.OrigState ≠ "" then [(("origState" : String), st.OrigState)] else []) ++
    (if st.OrigRedirectURI ≠ "" then [(("origRedirectURI" : String), st.OrigRedirectURI)] else [])
  let pieces := fields.map (fun (k, v) => jsonQuoted k ++ ':' :: jsonQuoted v)
  ⟨'{' :: (pieces.intersperse [',']).foldr (· ++ ·) [] ++ ['}']⟩

/-- JSON whitespace skipping. -/
def jsonSkipWs : List Char → List Char
  | c :: rest => if c = ' ' || c = '\t' || c = '\n' || c = '\r' then jsonSkipWs rest else c :: rest
  | [] => []

/-- Parse the remainder of a JSON string literal (the opening quote is
already consumed), returning the decoded contents and the input after
the closing quote.  Raw control characters and invalid escapes are
errors, as in Go's decoder. -/
def jsonStringRest : List Char → Option (List Char × List Char)
  | [] => none
  | '"' :: rest => some ([], rest)
  | '\\' :: e :: rest =>
    if e = '"' then (jsonStringRest rest).map (fun (s, r) => ('"' :: s, r))
    else if e = '\\' then (jsonStringRest rest).map (fun (s, r) => ('\\' :: s, r))
    else if e = '/' then (jsonStringRest rest).map (fun (s, r) => ('/' :: s, r))
    else if e = 'n' then (jsonStringRest rest).map (fun (s, r) => ('\n' :: s, r))
    else if e = 't' then (jsonStringRest rest).map (fun (s, r) => ('\t' :: s, r))
    else if e = 'r' then (jsonStringRest rest).map (fun (s, r) => ('\r' :: s, r))
    else if e = 'b' then (jsonStringRest rest).map (fun (s, r) => (Char.ofNat 8 :: s, r))
    else if e = 'f' then (jsonStringRest rest).map (fun (s, r) => (Char.ofNat 12 :: s, r))
    else if e = 'u' then
      match rest with
      | a :: b :: c :: d :: rest2 =>
        match hexVal a, hexVal b, hexVal c, hexVal d with
        | some x1, some x2, some x3, some x4 =>
          (jsonStringRest rest2).map
            (fun (s, r) => (Char.ofNat (((x1 * 16 + x2) * 16 + x3) * 16 + x4) :: s, r))
        | _, _, _, _ => none
      | _ => none
    else none
  | c :: rest =>
    if c.toNat < 32 then none
    else (jsonStringRest rest).map (fun (s, r) => (c :: s, r))

/-- A JSON member value as far as the decoder of `state` cares: a string
(usable for the two string fields), `null` (leaves the field at its zero
value), or anything else (an error if bound to a string field, skipped
for unknown keys). -/
inductive JVal where
  | jstr (s : List Char)
  | jnull
  | jother
deriving DecidableEq, Repr

def isNumChar (c : Char) : Bool :=
  c.isDigit || c = '-' || c = '+' || c = '.' || c = 'e' || c = 'E'

mutual

/-- Skip one JSON value; fuel bounds nesting and sequencing (one unit of
input is consumed before every recursive call, so `length + 1` suffices). -/
def jsonValue : Nat → List Char → Option (JVal × List Char)
  | 0, _ => none
  | fuel + 1, l =>
    match jsonSkipWs l with
    | '"' :: rest => (jsonStringRest rest).map (fun (s, r) => (JVal.jstr s, r))
    | '{' :: rest => (jsonMembers fuel rest).map (fun (_, r) => (JVal.jother, r))
    | '[' :: rest => (jsonElements fuel rest).map (fun r => (JVal.jother, r))
    | 't' :: 'r' :: 'u' :: 'e' :: rest => some (JVal.jother, rest)
    | 'f' :: 'a' :: 'l' :: 's' :: 'e' :: rest => some (JVal.jother, rest)
    | 'n' :: 'u' :: 'l' :: 'l' :: rest => some (JVal.jnull, rest)
    | c :: rest =>
      if c.isDigit || c = '-' then some (JVal.jother, rest.dropWhile isNumChar)
      else none
    | [] => none

/-- Parse the members of an object after its `{`, returning them and the
input after the matching `}`. -/
def jsonMembers : Nat → List Char → Option (List (String × JVal) × List Char)
  | 0, _ => none
  | fuel + 1, l =>
    match jsonSkipWs l with
    | '}' :: rest => some ([], rest)
    | '"' :: rest =>
      match jsonStringRest rest with
      | none => none
      | some (key, afterKey) =>
        match jsonSkipWs afterKey with
        | ':' :: afterColon =>
          match jsonValue fuel afterColon with
          | none => none
          | some (v, afterVal) =>
            match jsonSkipWs afterVal with
            | ',' :: afterComma =>
              (jsonMembers fuel afterComma).map (fun (ms, r) => ((⟨key⟩, v) :: ms, r))
            | '}' :: rest2 => some ([(⟨key⟩, v)], rest2)
            | _ => none
        | _ => none
    | _ => none

/-- Skip the elements of an array after its `[`. -/
def jsonElements : Nat → List Char → Option (List Char)
  | 0, _ => none
  | fuel + 1, l =>
    match jsonSkipWs l with
    | ']' :: rest => some rest
    | l2 =>
      match jsonValue fuel l2 with
      | none => none
      | some (_, afterVal) =>
        match jsonSkipWs afterVal with
        | ',' :: afterComma => jsonElements fuel afterComma
        | ']' :: rest2 => some rest2
        | _ => none

end

/-- Last value bound to a key (Go keeps the last duplicate). -/
def lookupLast (ms : List (String × JVal)) (k : String) : Option JVal :=
  ms.foldl (fun acc (k0, v) => if k0 = k then some v else acc) none

/-- Bind the member seen for a string field: absent or `null` leaves the
zero value `""`; a string sets it; any other value is a type error. -/
def bindStringField (m : Option JVal) : Option String :=
  match m with
  | none => some ""
  | some (JVal.jstr s) => some ⟨s⟩
  | some JVal.jnull => some ""
  | some JVal.jother => none

/-- Go `json.Unmarshal([]byte(str), &state{})`: the input must be a
single JSON object (or `null`, which leaves the zero value) followed at
most by whitespace; unknown keys are ignored; the two known keys must
hold strings (or `null`). -/
def jsonDecodeState (s : String) : Option state :=
  match jsonValue (s.length + 1) s.data with
  | some (JVal.jnull, rest) =>
    if jsonSkipWs rest = [] then some ⟨"", ""⟩ else none
  | _ =>
    match jsonSkipWs s.data with
    | '{' :: rest =>
      match jsonMembers (s.length + 1) rest with
      | none => none
      | some (ms, rest2) =>
        if jsonSkipWs rest2 = [] then
          match bindStringField (lookupLast ms "origState"),
                bindStringField (lookupLast ms "origRedirectURI") with
          | some a, some b => some ⟨a, b⟩
          | _, _ => none
        else none
    | _ => none

/-! ## The proxy core (src/proxy/oauth2.go) -/

/-- `sigs.k8s.io/controller-runtime/pkg/client.ObjectKey`
(= `types.NamespacedName`): the opaque identity a binding is keyed by. -/
structure ObjectKey where
  Namespace : String
  Name : String
deriving DecidableEq, Repr

/-- `OAUTH2Proxy` defines the service which is proxied (one binding). -/
structure OAUTH2Proxy where
  Host : String
  Service : String
  RedirectURI : String
  Paths : List String
  Port : Int
  Object : ObjectKey
deriving DecidableEq, Repr

/-- `HttpProxy.RegisterOrUpdate`: scan `h.dst` in order; on the first
binding with the same `Object`, overwrite its `Host`, `Port`, `Service`,
`RedirectURI` and `Paths` in place; otherwise append.  Always succeeds. -/
def registerOrUpdate (dst : OAUTH2Proxy) : List OAUTH2Proxy → List OAUTH2Proxy
  | [] => [dst]
  | v :: rest =>
    if v.Object = dst.Object then
      { v with Host := dst.Host, Port := dst.Port, Service := dst.Service,
               RedirectURI := dst.RedirectURI, Paths := dst.Paths } :: rest
    else v :: registerOrUpdate dst rest

/-- `HttpProxy.Unregister`: remove the first binding whose `Object`
equals the key (`h.dst = append(h.dst[:k], h.dst[k+1:]...)`); `none`
models returning `ErrServiceNotRegistered` with `h.dst` untouched. -/
def unregister (obj : ObjectKey) : List OAUTH2Proxy → Option (List OAUTH2Proxy)
  | [] => none
  | v :: rest =>
    if v.Object = obj then some rest
    else (unregister obj rest).map (v :: ·)

/-- `matchPath`: true when some registered prefix is a prefix of the
request path (`strings.HasPrefix(p, v)`). -/
def matchPath (p : String) (list : List String) : Bool :=
  list.any (fun v => v.data.isPrefixOf p.data)

/-- What the `ServeHTTP` registry scan decides for a request host:
which binding handles it on which leg, or an early error status. -/
inductive Route where
  | outbound (dst : OAUTH2Proxy)
  | inbound (dst : OAUTH2Proxy)
  | internalError
  | unavailable
deriving DecidableEq, Repr

/-- The scan in `ServeHTTP`: for each binding in registration order,
parse its `RedirectURI` (failure is an immediate 500), then dispatch to
the outbound leg when `dst.Host == r.Host`, else to the inbound leg when
the parsed redirect host equals `r.Host`; no binding left means 503. -/
def route (host : String) : List OAUTH2Proxy → Route
  | [] => Route.unavailable
  | dst :: rest =>
    match parseURL dst.RedirectURI with
    | none => Route.internalError
    | some u =>
      if dst.Host = host then Route.outbound dst
      else if u.host = host then Route.inbound dst
      else route host rest

/-- The slice of an `http.Request` the handler reads.  `method`,
`contentType` and `body` are carried so that requests differing only in
them are expressible; the source never consults them on the inbound leg. -/
structure Request where
  method : String
  host : String
  url : URL
  contentType : String
  body : String
deriving DecidableEq, Repr

/-- The slice of an `http.Response` the handler reads: status, header
map (entry order models Go's per-key value order) and body. -/
structure Response where
  status : Nat
  header : List (String × List String)
  body : String
deriving DecidableEq, Repr

/-- `res.Header[key]` (exact canonical key, as the source uses). -/
def headerGet (h : List (String × List String)) (key : String) : Option (List String) :=
  match h with
  | [] => none
  | (k0, v0) :: rest => if k0 = key then some v0 else headerGet rest key

/-- `res.Header[key] = []string{v}`. -/
def headerSet (h : List (String × List String)) (key : String) (v : List String) :
    List (String × List String) :=
  match h with
  | [] => [(key, v)]
  | (k0, v0) :: rest => if k0 = key then (key, v) :: rest else (k0, v0) :: headerSet rest key v

/-- Everything `ServeHTTP` writes for one request, plus whether the
backend was called (`h.client.Do` executed), which the spec constrains. -/
structure ServeResult where
  status : Nat
  header : List (String × List String)
  body : String
  backendCalled : Bool
deriving DecidableEq, Repr

/-- The request clone of the outbound leg: scheme forced to `http`,
host to `fmt.Sprintf("%s:%d", dst.Service, dst.Port)`. -/
def cloneRequest (r : Request) (dst : OAUTH2Proxy) : Request :=
  { r with url := { r.url with scheme := "http", host := dst.Service ++ ":" ++ toString dst.Port } }

/-- `changeRedirectURI` (outbound leg), with the transport abstracted:
`backend` maps the cloned request to `none` (transport error → 400) or a
response.  When the response has a `Location` header and the original
request path matches a configured prefix, a non-empty `redirect_uri` in
the location's query is wrapped: the original `redirect_uri` and `state`
are marshalled into the `state` envelope, and `redirect_uri` is replaced
by the binding's `RedirectURI` carrying the original's path.  Parse
failures: location or original `redirect_uri` → 400, binding
`RedirectURI` → 500.  Otherwise all headers, the status and the body are
forwarded unchanged. -/
def changeRedirectURI (r : Request) (dst : OAUTH2Proxy)
    (backend : Request → Option Response) : ServeResult :=
  match backend (cloneRequest r dst) with
  | none => ⟨400, [], "", true⟩
  | some res =>
    match headerGet res.header "Location" with
    | some (location0 :: _) =>
      if matchPath r.url.path dst.Paths then
        match parseURL location0 with
        | none => ⟨400, [], "", true⟩
        | some u =>
          let vals := parseQuery u.rawQuery
          if valuesGet vals "redirect_uri" ≠ "" then
            let st : state := ⟨valuesGet vals "state", valuesGet vals "redirect_uri"⟩
            let b := jsonEncodeState st
            match parseURL (valuesGet vals "redirect_uri") with
            | none => ⟨400, [], "", true⟩
            | some origRedirectUri =>
              match parseURL dst.RedirectURI with
              | none => ⟨500, [], "", true⟩
              | some redirectUri =>
                let redirectUri := { redirectUri with path := origRedirectUri.path }
                let vals := valuesSet vals "state" b
                let vals := valuesSet vals "redirect_uri" redirectUri.string
                let u := { u with rawQuery := valuesEncode vals }
                ⟨res.status, headerSet res.header "Location" [u.string], res.body, true⟩
          else ⟨res.status, res.header, res.body, true⟩
      else ⟨res.status, res.header, res.body, true⟩
    | _ => ⟨res.status, res.header, res.body, true⟩

/-- `recoverIncomingState` (inbound leg): read `state` from the URL
query (the only place the source looks), `json.Unmarshal` it (failure →
400), parse its `origRedirectURI` (failure → 400), then rebuild the
request URL with that host and path, replace `state` by `origState` or
drop it when empty, and answer 303 with the rebuilt URL as `Location`.
The `dst` argument is only used for logging in the source. -/
def recoverIncomingState (r : Request) (dst : OAUTH2Proxy) : ServeResult :=
  let _ := dst
  let vals := parseQuery r.url.rawQuery
  let str := valuesGet vals "state"
  match jsonDecodeState str with
  | none => ⟨400, [], "", false⟩
  | some st =>
    match parseURL st.OrigRedirectURI with
    | none => ⟨400, [], "", false⟩
    | some u =>
      let newURL0 := { r.url with path := u.path, host := u.host }
      let vals := if st.OrigState ≠ "" then valuesSet vals "state" st.OrigState
                  else valuesDel vals "state"
      let newURL := { newURL0 with rawQuery := valuesEncode vals }
      ⟨303, [("Location", [newURL.string])], "", false⟩

/-- `HttpProxy.ServeHTTP`: route by host, then run the selected leg;
a parse failure during the scan answers 500 and no match answers 503,
both without calling the backend. -/
def serveHTTP (reg : List OAUTH2Proxy) (r : Request)
    (backend : Request → Option Response) : ServeResult :=
  match route r.host reg with
  | Route.unavailable => ⟨503, [], "", false⟩
  | Route.internalError => ⟨500, [], "", false⟩
  | Route.outbound dst => changeRedirectURI r dst backend
  | Route.inbound dst => recoverIncomingState r dst

/-! ## Helper lemmas -/

/-- Overwriting all mutable fields of a binding that shares the target's
identity yields the target binding. -/
theorem updateFields_eq (v b : OAUTH2Proxy) (h : v.Object = b.Object) :
    ({ v with Host := b.Host, Port := b.Port, Service := b.Service,
              RedirectURI := b.RedirectURI, Paths := b.Paths } : OAUTH2Proxy) = b := by
  cases v; cases b; simp_all

/-- `registerOrUpdate` appends when the identity is fresh. -/
theorem registerOrUpdate_fresh (b : OAUTH2Proxy) (l : List OAUTH2Proxy)
    (hfresh : ∀ x ∈ l, x.Object ≠ b.Object) : registerOrUpdate b l = l ++ [b] := by
  induction l with
  | nil => rfl
  | cons v rest ih =>
    have hv : v.Object ≠ b.Object := hfresh v (List.mem_cons_self _ _)
    simp [registerOrUpdate, hv, ih (fun x hx => hfresh x (List.mem_cons_of_mem _ hx))]

/-- A scan that reaches a binding whose identity matches replaces it in
place. -/
theorem registerOrUpdate_replaces (b2 : OAUTH2Proxy) (pre : List OAUTH2Proxy) (b1 : OAUTH2Proxy)
    (post : List OAUTH2Proxy) (hpre : ∀ x ∈ pre, x.Object ≠ b2.Object)
    (hid : b1.Object = b2.Object) :
    registerOrUpdate b2 (pre ++ b1 :: post) = pre ++ b2 :: post := by
  induction pre with
  | nil => simp [registerOrUpdate, hid, updateFields_eq b1 b2 hid]
  | cons v rest ih =>
    have hv : v.Object ≠ b2.Object := hpre v (List.mem_cons_self _ _)
    simp [registerOrUpdate, hv, ih (fun x hx => hpre x (List.mem_cons_of_mem _ hx))]

/-- `route` skips bindings that parse and match neither way. -/
theorem route_append_no_match (host : String) (pre rest : List OAUTH2Proxy)
    (h : ∀ x ∈ pre, ∃ u, parseURL x.RedirectURI = some u ∧ x.Host ≠ host ∧ u.host ≠ host) :
    route host (pre ++ rest) = route host rest := by
  induction pre with
  | nil => rfl
  | cons dst tail ih =>
    obtain ⟨u, hu, h1, h2⟩ := h dst (List.mem_cons_self _ _)
    simp [route, hu, h1, h2, ih (fun x hx => h x (List.mem_cons_of_mem _ hx))]

/-- No binding parses-and-matches: the scan falls through to 503. -/
theorem route_no_match (host : String) (l : List OAUTH2Proxy)
    (h : ∀ x ∈ l, ∃ u, parseURL x.RedirectURI = some u ∧ x.Host ≠ host ∧ u.host ≠ host) :
    route host l = Route.unavailable := by
  have := route_append_no_match host l [] h
  simpa using this

/-- A binding at the head whose `Host` matches is taken on the outbound
leg (its `RedirectURI` must parse first). -/
theorem route_cons_outbound (host : String) (dst : OAUTH2Proxy) (rest : List OAUTH2Proxy)
    (u : URL) (hu : parseURL dst.RedirectURI = some u) (hh : dst.Host = host) :
    route host (dst :: rest) = Route.outbound dst := by
  simp [route, hu, hh]

/-- A binding at the head whose redirect host (but not `Host`) matches is
taken on the inbound leg. -/
theorem route_cons_inbound (host : String) (dst : OAUTH2Proxy) (rest : List OAUTH2Proxy)
    (u : URL) (hu : parseURL dst.RedirectURI = some u) (hh : dst.Host ≠ host)
    (hr : u.host = host) : route host (dst :: rest) = Route.inbound dst := by
  simp [route, hu, hh, hr]

/-- Successful inbound recovery: decodable state and parsable original
redirect URI produce the 303 with the rebuilt location. -/
theorem recover_success (r : Request) (dst : OAUTH2Proxy) (st : state) (u : URL)
    (h1 : jsonDecodeState (valuesGet (parseQuery r.url.rawQuery) "state") = some st)
    (h2 : parseURL st.OrigRedirectURI = some u) :
    recoverIncomingState r dst =
      ⟨303, [("Location",
        [URL.string ⟨r.url.scheme, u.host, u.path,
          valuesEncode (if st.OrigState ≠ "" then
              valuesSet (parseQuery r.url.rawQuery) "state" st.OrigState
            else valuesDel (parseQuery r.url.rawQuery) "state")⟩])], "", false⟩ := by
  simp only [recoverIncomingState, h1, h2]

/-- An undecodable `state` value aborts the inbound leg with a bare 400. -/
theorem recover_fail_decode (r : Request) (dst : OAUTH2Proxy)
    (h : jsonDecodeState (valuesGet (parseQuery r.url.rawQuery) "state") = none) :
    recoverIncomingState r dst = ⟨400, [], "", false⟩ := by
  simp only [recoverIncomingState, h]

/-- A decodable envelope whose `origRedirectURI` does not parse also
aborts the inbound leg with a bare 400. -/
theorem recover_fail_parse (r : Request) (dst : OAUTH2Proxy) (st : state)
    (h1 : jsonDecodeState (valuesGet (parseQuery r.url.rawQuery) "state") = some st)
    (h2 : parseURL st.OrigRedirectURI = none) :
    recoverIncomingState r dst = ⟨400, [], "", false⟩ := by
  simp only [recoverIncomingState, h1, h2]

/-- The inbound query of the round-trip scenarios: an authorization code
`abc` plus the serialized envelope in `state`. -/
def inboundQuery (env : state) : String :=
  valuesEncode (valuesSet (valuesSet [] "code" "abc") "state" (jsonEncodeState env))

/-- The urlencoded form body of the POST scenario from the repository's
own tests: a serialized envelope in `state` plus `code=foobar`. -/
def formPostBody : String :=
  valuesEncode (valuesSet (valuesSet [] "state"
    (jsonEncodeState ⟨"my-state", "https://my-original-uri"⟩)) "code" "foobar")

/-- The POST request of that scenario: the envelope travels only in the
urlencoded body; the URL query is empty. -/
def formPostRequest : Request :=
  ⟨"POST", "oauth2proxy", ⟨"https", "oauth2proxy", "", ""⟩,
   "application/x-www-form-urlencoded", formPostBody⟩

/-! ## Claims -/

/-- C5: calling `RegisterOrUpdate` twice with bindings sharing the same
identity (`Object` key) but differing in other fields leaves exactly one
binding for that identity, carrying all field values from the second
call, at the position the identity first occupied; a call with a fresh
identity appends at the end. -/
theorem c5_idempotent_registration (l : List OAUTH2Proxy) (b1 b2 : OAUTH2Proxy)
    (hid : b1.Object = b2.Object) (hfresh : ∀ x ∈ l, x.Object ≠ b1.Object) :
    registerOrUpdate b1 l = l ++ [b1] ∧
    registerOrUpdate b2 (registerOrUpdate b1 l) = l ++ [b2] := by
  have h1 : registerOrUpdate b1 l = l ++ [b1] := registerOrUpdate_fresh b1 l hfresh
  refine ⟨h1, ?_⟩
  rw [h1]
  have := registerOrUpdate_replaces b2 l b1 [] (fun x hx => hid ▸ hfresh x hx) hid
  simpa using this

/-- C5 witness: a fresh registration appends and a second call with the
same identity replaces in place with the latest field values. -/
theorem c5_idempotent_registration_witness :
    registerOrUpdate ⟨"foo", "bar", "https://oauth2proxy", ["/"], 8080, ⟨"bar", "foo"⟩⟩ [] =
      [⟨"foo", "bar", "https://oauth2proxy", ["/"], 8080, ⟨"bar", "foo"⟩⟩] ∧
    registerOrUpdate ⟨"foo2", "bar2", "https://oauth2proxy2", ["/"], 8080, ⟨"bar", "foo"⟩⟩
        (registerOrUpdate ⟨"foo", "bar", "https://oauth2proxy", ["/"], 8080, ⟨"bar", "foo"⟩⟩ []) =
      [⟨"foo2", "bar2", "https://oauth2proxy2", ["/"], 8080, ⟨"bar", "foo"⟩⟩] :=
  c5_idempotent_registration [] ⟨"foo", "bar", "https://oauth2proxy", ["/"], 8080, ⟨"bar", "foo"⟩⟩
    ⟨"foo2", "bar2", "https://oauth2proxy2", ["/"], 8080, ⟨"bar", "foo"⟩⟩ rfl (by simp)

/-- C6: `Unregister` returns the `NotRegistered` error (and leaves the
registry unchanged) iff no binding with the identity is present; when one
is present, the first such binding is removed, the relative order of the
rest is preserved, and no error is returned. -/
theorem c6_unregister_contract (obj : ObjectKey) (l : List OAUTH2Proxy) :
    (unregister obj l = none ↔ ∀ x ∈ l, x.Object ≠ obj) ∧
    (∀ pre b post, l = pre ++ b :: post → (∀ x ∈ pre, x.Object ≠ obj) → b.Object = obj →
      unregister obj l = some (pre ++ post)) := by
  constructor
  · induction l with
    | nil => simp [unregister]
    | cons v rest ih =>
      by_cases hv : v.Object = obj
      · simp [unregister, hv]
      · simp only [unregister, hv, if_false, Option.map_eq_none']
        rw [ih]
        constructor
        · intro h x hx
          rcases List.mem_cons.mp hx with h0 | hx2
          · exact h0 ▸ hv
          · exact h x hx2
        · intro h x hx
          exact h x (List.mem_cons_of_mem _ hx)
  · intro pre b post hl hpre hb
    subst hl
    induction pre with
    | nil => simp [unregister, hb]
    | cons v rest ih =>
      have hv : v.Object ≠ obj := hpre v (List.mem_cons_self _ _)
      simp [unregister, hv, ih (fun x hx => hpre x (List.mem_cons_of_mem _ hx))]

/-- C6 witness: unregistering an absent identity fails, unregistering a
present one removes exactly that binding. -/
theorem c6_unregister_contract_witness :
    unregister ⟨"ns", "gone"⟩ [⟨"foo", "bar", "https://oauth2proxy", ["/"], 8080, ⟨"ns", "a"⟩⟩] =
      none ∧
    unregister ⟨"ns", "a"⟩
        [⟨"h1", "s1", "https://r1", ["/"], 1, ⟨"ns", "keep"⟩⟩,
         ⟨"foo", "bar", "https://oauth2proxy", ["/"], 8080, ⟨"ns", "a"⟩⟩,
         ⟨"h2", "s2", "https://r2", ["/"], 2, ⟨"ns", "keep2"⟩⟩] =
      some [⟨"h1", "s1", "https://r1", ["/"], 1, ⟨"ns", "keep"⟩⟩,
            ⟨"h2", "s2", "https://r2", ["/"], 2, ⟨"ns", "keep2"⟩⟩] := by
  constructor
  · exact (c6_unregister_contract ⟨"ns", "gone"⟩ _).1.mpr (by decide)
  · exact (c6_unregister_contract ⟨"ns", "a"⟩ _).2
      [⟨"h1", "s1", "https://r1", ["/"], 1, ⟨"ns", "keep"⟩⟩]
      ⟨"foo", "bar", "https://oauth2proxy", ["/"], 8080, ⟨"ns", "a"⟩⟩
      [⟨"h2", "s2", "https://r2", ["/"], 2, ⟨"ns", "keep2"⟩⟩] rfl (by decide) rfl

/-- C4: when every binding's `RedirectURI` parses and no binding matches
the request host on either criterion, `ServeHTTP` answers 503 without
calling the backend. -/
theorem c4_no_match_503 (reg : List OAUTH2Proxy) (r : Request)
    (backend : Request → Option Response)
    (h : ∀ x ∈ reg, ∃ u, parseURL x.RedirectURI = some u ∧ x.Host ≠ r.host ∧ u.host ≠ r.host) :
    serveHTTP reg r backend = ⟨503, [], "", false⟩ := by
  simp [serveHTTP, route_no_match r.host reg h]

/-- C4 witness: a host matching nothing gets 503 and no backend call. -/
theorem c4_no_match_503_witness :
    serveHTTP [⟨"foo", "bar", "https://oauth2proxy", ["/"], 8080, ⟨"bar", "foo"⟩⟩]
      ⟨"GET", "nobody", ⟨"https", "nobody", "/x", ""⟩, "", ""⟩ (fun _ => none) =
      ⟨503, [], "", false⟩ :=
  c4_no_match_503 _ _ _ (by
    intro x hx
    simp only [List.mem_singleton] at hx
    subst hx
    exact ⟨⟨"https", "oauth2proxy", "", ""⟩, rfl, by decide, by decide⟩)

/-- C10: a binding whose `RedirectURI` does not parse turns the scan into
an immediate 500 for every request not matched by an earlier binding —
including hosts that would match a later binding — with no backend call. -/
theorem c10_malformed_binding_poisoning (pre post : List OAUTH2Proxy) (bad : OAUTH2Proxy)
    (r : Request) (backend : Request → Option Response)
    (hbad : parseURL bad.RedirectURI = none)
    (hpre : ∀ x ∈ pre, ∃ u, parseURL x.RedirectURI = some u ∧ x.Host ≠ r.host ∧ u.host ≠ r.host) :
    serveHTTP (pre ++ bad :: post) r backend = ⟨500, [], "", false⟩ := by
  have : route r.host (pre ++ bad :: post) = Route.internalError := by
    rw [route_append_no_match r.host pre (bad :: post) hpre]
    simp [route, hbad]
  simp [serveHTTP, this]

/-- C10 witness: the malformed middle binding blocks a request whose host
equals the `Host` of the binding registered after it. -/
theorem c10_malformed_binding_poisoning_witness :
    serveHTTP
      [⟨"a.example", "s1", "https://cb.example/x", ["/"], 80, ⟨"ns", "b1"⟩⟩,
       ⟨"bad.example", "s", ":bad", ["/"], 80, ⟨"ns", "bad"⟩⟩,
       ⟨"late.example", "s2", "https://other.example/y", ["/"], 80, ⟨"ns", "b2"⟩⟩]
      ⟨"GET", "late.example", ⟨"https", "late.example", "", ""⟩, "", ""⟩ (fun _ => none) =
      ⟨500, [], "", false⟩ :=
  c10_malformed_binding_poisoning
    [⟨"a.example", "s1", "https://cb.example/x", ["/"], 80, ⟨"ns", "b1"⟩⟩]
    [⟨"late.example", "s2", "https://other.example/y", ["/"], 80, ⟨"ns", "b2"⟩⟩]
    ⟨"bad.example", "s", ":bad", ["/"], 80, ⟨"ns", "bad"⟩⟩ _ _ rfl
    (by
      intro x hx
      simp only [List.mem_singleton] at hx
      subst hx
      exact ⟨⟨"https", "cb.example", "/x", ""⟩, rfl, by decide, by decide⟩)

/-- C3 counterexample: with a first binding whose redirect host is
`cb.example` and a second binding whose `Host` is `cb.example`, a request
for `cb.example` selects the first binding on the inbound leg, even
though a binding with a matching `Host` exists — refuting the claimed
two-phase precedence of `Host` matches over earlier redirect-host
matches. -/
theorem c3_routing_priority_counterexample :
    route "cb.example"
      [⟨"a.example", "s1", "https://cb.example/x", ["/"], 80, ⟨"ns", "b1"⟩⟩,
       ⟨"cb.example", "s2", "https://other.example/y", ["/"], 80, ⟨"ns", "b2"⟩⟩] =
      Route.inbound ⟨"a.example", "s1", "https://cb.example/x", ["/"], 80, ⟨"ns", "b1"⟩⟩ ∧
    (⟨"cb.example", "s2", "https://other.example/y", ["/"], 80, ⟨"ns", "b2"⟩⟩ : OAUTH2Proxy).Host
      = "cb.example" ∧
    Route.inbound ⟨"a.example", "s1", "https://cb.example/x", ["/"], 80, ⟨"ns", "b1"⟩⟩ ≠
      Route.outbound ⟨"cb.example", "s2", "https://other.example/y", ["/"], 80, ⟨"ns", "b2"⟩⟩ := by
  refine ⟨by decide, rfl, by decide⟩

/-- C3 (amended): bindings are scanned once in registration order; each
binding is checked on `Host` first, then on its redirect host; the first
binding matching either criterion is selected.  Consequently a
redirect-host match on an earlier binding takes precedence over a `Host`
match on a later binding. -/
theorem c3_routing_priority_amended (host : String) (pre post : List OAUTH2Proxy)
    (b : OAUTH2Proxy) (u : URL)
    (hpre : ∀ x ∈ pre, ∃ w, parseURL x.RedirectURI = some w ∧ x.Host ≠ host ∧ w.host ≠ host)
    (hb : parseURL b.RedirectURI = some u) (hm : b.Host = host ∨ u.host = host) :
    route host (pre ++ b :: post) =
      if b.Host = host then Route.outbound b else Route.inbound b := by
  rw [route_append_no_match host pre (b :: post) hpre]
  by_cases hh : b.Host = host
  · simp [route, hb, hh]
  · rcases hm with hm | hm
    · exact absurd hm hh
    · simp [route, hb, hh, hm]

/-- C3 amended witness: the first binding's redirect-host match wins over
the later binding's `Host` match. -/
theorem c3_routing_priority_amended_witness :
    route "cb.example"
      [⟨"a.example", "s1", "https://cb.example/x", ["/"], 80, ⟨"ns", "b1"⟩⟩,
       ⟨"cb.example", "s2", "https://other.example/y", ["/"], 80, ⟨"ns", "b2"⟩⟩] =
      Route.inbound ⟨"a.example", "s1", "https://cb.example/x", ["/"], 80, ⟨"ns", "b1"⟩⟩ := by
  have h := c3_routing_priority_amended "cb.example" []
    [⟨"cb.example", "s2", "https://other.example/y", ["/"], 80, ⟨"ns", "b2"⟩⟩]
    ⟨"a.example", "s1", "https://cb.example/x", ["/"], 80, ⟨"ns", "b1"⟩⟩
    ⟨"https", "cb.example", "/x", ""⟩ (by simp) rfl (Or.inr rfl)
  simpa using h

/-- C1: for a binding with `redirectURI = https://proxy.example/cb` and
`pathPrefixes = ["/"]`, when the backend response to a request whose host
equals the binding's `Host` carries
`Location: https://idp/authorize?redirect_uri=https://proxy.example/cb/x&state=XYZ`
and the request path matches a prefix, the forwarded `Location` has its
`redirect_uri` query parameter equal to `https://proxy.example/cb/x`
(scheme+host from the binding, path from the original `redirect_uri`) and
its `state` parameter deserializes to the envelope with
`origRedirectURI = https://proxy.example/cb/x` and `origState = XYZ`. -/
theorem c1_outbound_round_trip (host svc : String) (port : Int) (obj : ObjectKey) (p : String)
    (hpath : matchPath p ["/"] = true) :
    ∃ loc u2,
      serveHTTP [⟨host, svc, "https://proxy.example/cb", ["/"], port, obj⟩]
          ⟨"GET", host, ⟨"https", host, p, ""⟩, "", ""⟩
          (fun _ => some ⟨200, [("Location",
            ["https://idp/authorize?redirect_uri=https://proxy.example/cb/x&state=XYZ"])], ""⟩) =
        ⟨200, [("Location", [loc])], "", true⟩ ∧
      parseURL loc = some u2 ∧
      valuesGet (parseQuery u2.rawQuery) "redirect_uri" = "https://proxy.example/cb/x" ∧
      jsonDecodeState (valuesGet (parseQuery u2.rawQuery) "state") =
        some ⟨"XYZ", "https://proxy.example/cb/x"⟩ := by
  refine ⟨"https://idp/authorize?redirect_uri=https%3A%2F%2Fproxy.example%2Fcb%2Fx&state=%7B%22origState%22%3A%22XYZ%22%2C%22origRedirectURI%22%3A%22https%3A%2F%2Fproxy.example%2Fcb%2Fx%22%7D",
    ⟨"https", "idp", "/authorize",
     "redirect_uri=https%3A%2F%2Fproxy.example%2Fcb%2Fx&state=%7B%22origState%22%3A%22XYZ%22%2C%22origRedirectURI%22%3A%22https%3A%2F%2Fproxy.example%2Fcb%2Fx%22%7D"⟩,
    ?_, rfl, rfl, rfl⟩
  have hroute := route_cons_outbound host ⟨host, svc, "https://proxy.example/cb", ["/"], port, obj⟩
    [] ⟨"https", "proxy.example", "/cb", ""⟩ rfl rfl
  simp only [serveHTTP, hroute]
  simp only [changeRedirectURI, hpath]
  rfl

/-- C1 witness: the round trip at a concrete binding and request. -/
theorem c1_outbound_round_trip_witness :
    matchPath "/login" ["/"] = true ∧
    ∃ loc u2,
      serveHTTP [⟨"foo", "bar", "https://proxy.example/cb", ["/"], 8080, ⟨"bar", "foo"⟩⟩]
          ⟨"GET", "foo", ⟨"https", "foo", "/login", ""⟩, "", ""⟩
          (fun _ => some ⟨200, [("Location",
            ["https://idp/authorize?redirect_uri=https://proxy.example/cb/x&state=XYZ"])], ""⟩) =
        ⟨200, [("Location", [loc])], "", true⟩ ∧
      parseURL loc = some u2 ∧
      valuesGet (parseQuery u2.rawQuery) "redirect_uri" = "https://proxy.example/cb/x" ∧
      jsonDecodeState (valuesGet (parseQuery u2.rawQuery) "state") =
        some ⟨"XYZ", "https://proxy.example/cb/x"⟩ :=
  ⟨by decide, c1_outbound_round_trip "foo" "bar" 8080 ⟨"bar", "foo"⟩ "/login" (by decide)⟩

/-- C2: for every binding, a GET to the host of the binding's
`redirectURI` whose query carries `code=abc` and `state` equal to the
serialized envelope with `origRedirectURI = https://app.example/done` and
`origState = s1` yields 303 with `Location` exactly
`https://app.example/done?code=abc&state=s1`; with `origState` empty the
`Location` is `https://app.example/done?code=abc`, with no `state` key. -/
theorem c2_inbound_round_trip (dst : OAUTH2Proxy) (u : URL)
    (backend : Request → Option Response)
    (hparse : parseURL dst.RedirectURI = some u) (hne : dst.Host ≠ u.host) :
    serveHTTP [dst]
        ⟨"GET", u.host,
         ⟨"https", u.host, "", inboundQuery ⟨"s1", "https://app.example/done"⟩⟩, "", ""⟩ backend =
      ⟨303, [("Location", ["https://app.example/done?code=abc&state=s1"])], "", false⟩ ∧
    serveHTTP [dst]
        ⟨"GET", u.host,
         ⟨"https", u.host, "", inboundQuery ⟨"", "https://app.example/done"⟩⟩, "", ""⟩ backend =
      ⟨303, [("Location", ["https://app.example/done?code=abc"])], "", false⟩ := by
  have hroute := route_cons_inbound u.host dst [] u hparse hne rfl
  constructor
  · simp only [serveHTTP, hroute]
    rw [recover_success
      ⟨"GET", u.host, ⟨"https", u.host, "", inboundQuery ⟨"s1", "https://app.example/done"⟩⟩, "", ""⟩
      dst ⟨"s1", "https://app.example/done"⟩ ⟨"https", "app.example", "/done", ""⟩ rfl rfl]
    rfl
  · simp only [serveHTTP, hroute]
    rw [recover_success
      ⟨"GET", u.host, ⟨"https", u.host, "", inboundQuery ⟨"", "https://app.example/done"⟩⟩, "", ""⟩
      dst ⟨"", "https://app.example/done"⟩ ⟨"https", "app.example", "/done", ""⟩ rfl rfl]
    rfl

/-- C2 witness: the inbound round trip at a concrete binding. -/
theorem c2_inbound_round_trip_witness :
    serveHTTP [⟨"foo", "bar", "https://oauth2proxy", ["/"], 8080, ⟨"bar", "foo"⟩⟩]
        ⟨"GET", "oauth2proxy",
         ⟨"https", "oauth2proxy", "", inboundQuery ⟨"s1", "https://app.example/done"⟩⟩, "", ""⟩
        (fun _ => none) =
      ⟨303, [("Location", ["https://app.example/done?code=abc&state=s1"])], "", false⟩ ∧
    serveHTTP [⟨"foo", "bar", "https://oauth2proxy", ["/"], 8080, ⟨"bar", "foo"⟩⟩]
        ⟨"GET", "oauth2proxy",
         ⟨"https", "oauth2proxy", "", inboundQuery ⟨"", "https://app.example/done"⟩⟩, "", ""⟩
        (fun _ => none) =
      ⟨303, [("Location", ["https://app.example/done?code=abc"])], "", false⟩ :=
  c2_inbound_round_trip ⟨"foo", "bar", "https://oauth2proxy", ["/"], 8080, ⟨"bar", "foo"⟩⟩
    ⟨"https", "oauth2proxy", "", ""⟩ (fun _ => none) rfl (by decide)

/-- C7: on the inbound leg, a `state` value that does not deserialize —
the absent parameter reads as the empty string, which does not
deserialize — or whose `origRedirectURI` does not parse yields 400 with
no `Location` header and never a 303. -/
theorem c7_malformed_state_400 (reg : List OAUTH2Proxy) (r : Request)
    (backend : Request → Option Response) (dst : OAUTH2Proxy)
    (hroute : route r.host reg = Route.inbound dst)
    (hbad : jsonDecodeState (valuesGet (parseQuery r.url.rawQuery) "state") = none ∨
      ∃ st, jsonDecodeState (valuesGet (parseQuery r.url.rawQuery) "state") = some st ∧
        parseURL st.OrigRedirectURI = none) :
    serveHTTP reg r backend = ⟨400, [], "", false⟩ ∧ jsonDecodeState "" = none := by
  refine ⟨?_, rfl⟩
  simp only [serveHTTP, hroute]
  rcases hbad with h | ⟨st, h1, h2⟩
  · exact recover_fail_decode r dst h
  · exact recover_fail_parse r dst st h1 h2

/-- C7 witness: `state=invalid` on the inbound leg yields a bare 400. -/
theorem c7_malformed_state_400_witness :
    serveHTTP [⟨"foo", "bar", "https://oauth2proxy", ["/"], 8080, ⟨"bar", "foo"⟩⟩]
        ⟨"GET", "oauth2proxy", ⟨"https", "oauth2proxy", "", "state=invalid"⟩, "", ""⟩
        (fun _ => none) =
      ⟨400, [], "", false⟩ ∧ jsonDecodeState "" = none :=
  c7_malformed_state_400 [⟨"foo", "bar", "https://oauth2proxy", ["/"], 8080, ⟨"bar", "foo"⟩⟩]
    ⟨"GET", "oauth2proxy", ⟨"https", "oauth2proxy", "", "state=invalid"⟩, "", ""⟩
    (fun _ => none) ⟨"foo", "bar", "https://oauth2proxy", ["/"], 8080, ⟨"bar", "foo"⟩⟩
    rfl (Or.inl rfl)

/-- C8: the source reads `state` only from the URL query
(`r.URL.Query()`), so the POST scenario of the repository's own tests —
a urlencoded form body carrying a perfectly decodable envelope and a
code, with an empty URL query — is answered 400 instead of the 303 the
tests and the spec require. -/
theorem c8_post_form_state_ignored :
    serveHTTP [⟨"foo", "bar", "https://oauth2proxy", ["/"], 8080, ⟨"bar", "foo"⟩⟩]
        formPostRequest (fun _ => none) = ⟨400, [], "", false⟩ ∧
    formPostRequest.method = "POST" ∧
    formPostRequest.contentType = "application/x-www-form-urlencoded" ∧
    jsonDecodeState (valuesGet (parseQuery formPostRequest.body) "state") =
      some ⟨"my-state", "https://my-original-uri"⟩ := by
  refine ⟨rfl, rfl, rfl, rfl⟩

end OAuth2Redirect
